import Mathlib

/-!
Verification development for the trip-planner backend authentication core.

This file shallowly embeds the authentication subsystem of the repository:

  * src/utils/parser.ts               (parseDuration, over the ms library)
  * src/users/users.repository.ts     (UsersRepository)
  * src/users/users.service.ts        (UsersService, final revision in the file)
  * src/auth/auth.repository.ts       (AuthRepository)
  * src/auth/auth.service.ts          (AuthService, final revision in the file)

Conventions of the embedding:

  * Timestamps are `Int` milliseconds since the epoch (JS `Date.now()` /
    `Date.getTime()`); each operation takes the current time as an explicit
    `now` parameter.
  * bcrypt hashing is salted: each call to `bcrypt.hash` consumes a fresh
    nonce from the database state (`Db.nonce`), standing for the random salt,
    so two hashes of the same input differ.  `bcrypt.compare` checks the
    hashed secret against the raw input.
  * Generated row ids also consume the nonce counter (cuid in the source).
  * Fallible code returns `Except Err`; operations that mutate state return
    `Except Err result × Db` so that partial writes made before a thrown
    exception persist, exactly as in the sequential JS execution.
  * External storage calls that can fail for environmental reasons (driver
    errors) are modelled with explicit fault-injection fields on `Db`
    (`userCreateFault`, `tokenCreateFault`, `tokenUpdateFault`,
    `tokenDeleteFault`); when such a field is `some msg` the corresponding
    storage primitive throws a raw (non-domain) error with that message.
-/

deriving instance DecidableEq for Except

/-- The error taxonomy of the service.  The first five constructors are the
NestJS domain exceptions (`ConflictException`, `UnauthorizedException`,
`ForbiddenException`, `BadRequestException`, `NotFoundException`,
`InternalServerErrorException`); `raw` stands for every other thrown JS
value (a `TypeError`, a storage-driver error, ...), which is not an
HttpException. -/
inductive Err where
  | conflict (msg : String)
  | unauthorized (msg : String)
  | forbidden (msg : String)
  | badRequest (msg : String)
  | notFound (msg : String)
  | internal (msg : String)
  | raw (msg : String)
deriving DecidableEq, Repr

/-- A bcrypt hash of a secret of type α: the one-way digest together with the
random salt that was baked into it.  Two hashes of the same secret made with
different salts are different values, as in the source (bcrypt with cost 10). -/
structure Hashed (α : Type) where
  secret : α
  salt : Nat
deriving DecidableEq, Repr

/-- bcrypt.compare: verify a raw secret against a stored hash. -/
def bcryptCompare {α : Type} [DecidableEq α] (raw : α) (h : Hashed α) : Bool :=
  decide (raw = h.secret)

/-- JWT payload embedded in access and refresh tokens
(src/auth/models/index.ts, AccessTokenPayload). -/
structure AccessTokenPayload where
  sub : String
  username : String
deriving DecidableEq, Repr

/-- A signed JWT, modelled as the record of everything `jwtService.signAsync`
puts into it: the payload, the signing secret (standing for the signature
domain), the expiresIn option in seconds, and the issue time. -/
structure Jwt where
  sub : String
  username : String
  secret : String
  expiresIn : Int
  iat : Int
deriving DecidableEq, Repr

/-- jwtService.signAsync(payload, { secret, expiresIn }). -/
def signJwt (payload : AccessTokenPayload) (secret : String) (expiresIn : Int)
    (now : Int) : Jwt :=
  { sub := payload.sub, username := payload.username, secret := secret,
    expiresIn := expiresIn, iat := now }

/-- A user row (prisma `users` table): identity, credential hash and the
account-protection columns added by the lockout migration. -/
structure UserRec where
  id : String
  username : String
  password : Hashed String
  failedLoginAttempts : Nat
  lockUntil : Option Int
  lastLoginAt : Option Int
  passwordChangedAt : Option Int
  isActive : Bool
  deletedAt : Option Int
deriving DecidableEq, Repr

/-- A refresh-token row (prisma `user_access_tokens` table). -/
structure TokenRec where
  id : String
  userId : String
  deviceId : String
  tokenHash : Hashed Jwt
  expiresAt : Int
  revokedAt : Option Int
  createdAt : Int
deriving DecidableEq, Repr

/-- The persistent state: both tables, the fresh-nonce source for salts and
generated ids, and the storage fault-injection fields (none = storage healthy). -/
structure Db where
  users : List UserRec
  tokens : List TokenRec
  nonce : Nat
  userCreateFault : Option String := none
  tokenCreateFault : Option String := none
  tokenUpdateFault : Option String := none
  tokenDeleteFault : Option String := none
deriving DecidableEq, Repr

/-- bcrypt.hash(secret, 10): produce a salted hash, consuming a fresh nonce. -/
def bcryptHash {α : Type} (secret : α) (db : Db) : Hashed α × Db :=
  (⟨secret, db.nonce⟩, { db with nonce := db.nonce + 1 })

/-- Environment configuration consumed by getJwtConfig.  `none` models an
unset variable; the source also treats the empty string as missing (JS
falsiness). -/
structure Config where
  accessSecret : Option String
  refreshSecret : Option String
  accessExpiresIn : Option String
  refreshExpiresIn : Option String
deriving DecidableEq, Repr

/-- Millisecond multiplier of a duration unit, lowercased — the unit table of
the ms library (y = 365.25 d). -/
def msUnit : String → Option Int
  | "years" | "year" | "yrs" | "yr" | "y" => some 31557600000
  | "weeks" | "week" | "w" => some 604800000
  | "days" | "day" | "d" => some 86400000
  | "hours" | "hour" | "hrs" | "hr" | "h" => some 3600000
  | "minutes" | "minute" | "mins" | "min" | "m" => some 60000
  | "seconds" | "second" | "secs" | "sec" | "s" => some 1000
  | "milliseconds" | "millisecond" | "msecs" | "msec" | "ms" => some 1
  | "" => some 1
  | _ => none

/-- Lowercase a single ASCII character (the case-insensitive regex flag of the
ms library only matters on ASCII unit words). -/
def lowerChar (c : Char) : Char :=
  if 'A' ≤ c ∧ c ≤ 'Z' then Char.ofNat (c.toNat + 32) else c

/-- Split a character list into its leading decimal digits and the rest. -/
def takeDigits : List Char → (List Char × List Char)
  | [] => ([], [])
  | c :: cs =>
    if c.isDigit then
      let (ds, rest) := takeDigits cs
      (c :: ds, rest)
    else ([], c :: cs)

/-- Numeric value of a list of decimal digits. -/
def digitsToNat (ds : List Char) : Nat :=
  ds.foldl (fun acc d => acc * 10 + (d.toNat - 48)) 0

/-- ms(value) of the ms library, restricted to the integer fragment of its
grammar: an optional minus sign, a nonempty run of decimal digits, optional
spaces, and an optional unit word (case-insensitive).  Strings longer than
100 characters and strings outside the grammar yield `none` (the library
returns undefined).  The fractional numeric forms of the library ("1.5h")
are outside this model; no claim mentions them. -/
def msParse (s : String) : Option Int :=
  if s.length > 100 then none else
  let cs := s.toList
  let (neg, cs) := match cs with
    | '-' :: rest => (true, rest)
    | _ => (false, cs)
  let (ds, rest) := takeDigits cs
  if ds.isEmpty then none else
  let n : Int := Int.ofNat (digitsToNat ds)
  let unit := String.mk ((rest.dropWhile (· = ' ')).map lowerChar)
  match msUnit unit with
  | none => none
  | some mult => some ((if neg then -n else n) * mult)

/-- parseDuration (src/utils/parser.ts): call ms(value); if the result is not
a number, throw a TypeError — a raw (non-HttpException) error. -/
def parseDuration (value : String) : Except Err Int :=
  match msParse value with
  | some duration => .ok duration
  | none => .error (.raw ("Invalid duration format: " ++ value))

/-- The validated JWT configuration returned by getJwtConfig: both secrets and
both expiry windows in milliseconds. -/
structure JwtConfig where
  accessSecret : String
  refreshSecret : String
  accessExpiresMs : Int
  refreshExpiresMs : Int
deriving DecidableEq, Repr

/-- JS falsiness of an optional string: undefined or empty. -/
def falsyStr : Option String → Bool
  | none => true
  | some s => s.isEmpty

/-- AuthService.getJwtConfig: read the four variables, fail with the Internal
configuration error if any is missing or empty, then parse both durations with
parseDuration.  A parse failure propagates as the TypeError thrown by
parseDuration; the subsequent typeof-number check of the source is unreachable
(parseDuration already threw) and therefore contributes nothing here. -/
def AuthService.getJwtConfig (cfg : Config) : Except Err JwtConfig :=
  if falsyStr cfg.accessSecret || falsyStr cfg.refreshSecret ||
     falsyStr cfg.accessExpiresIn || falsyStr cfg.refreshExpiresIn then
    .error (.internal "JWT configuration is missing")
  else
    match parseDuration (cfg.accessExpiresIn.getD "") with
    | .error e => .error e
    | .ok accessExpiresMs =>
      match parseDuration (cfg.refreshExpiresIn.getD "") with
      | .error e => .error e
      | .ok refreshExpiresMs =>
        .ok { accessSecret := cfg.accessSecret.getD "",
              refreshSecret := cfg.refreshSecret.getD "",
              accessExpiresMs := accessExpiresMs,
              refreshExpiresMs := refreshExpiresMs }

/-- Math.floor(x / 1000) on integers: JS floors toward negative infinity. -/
def floorDivThousand (x : Int) : Int := Int.fdiv x 1000

/-- AuthService.generateAccessToken: sign the payload with the access secret,
with expiresIn = Math.floor(accessExpiresMs / 1000) seconds. -/
def AuthService.generateAccessToken (cfg : Config) (payload : AccessTokenPayload)
    (now : Int) : Except Err Jwt :=
  match AuthService.getJwtConfig cfg with
  | .error e => .error e
  | .ok jc => .ok (signJwt payload jc.accessSecret (floorDivThousand jc.accessExpiresMs) now)

/-- AuthService.generateRefreshToken: sign with the refresh secret, expiresIn
floored to seconds, and return the expiry timestamp now + refreshExpiresMs. -/
def AuthService.generateRefreshToken (cfg : Config) (payload : AccessTokenPayload)
    (now : Int) : Except Err (Jwt × Int) :=
  match AuthService.getJwtConfig cfg with
  | .error e => .error e
  | .ok jc =>
    .ok (signJwt payload jc.refreshSecret (floorDivThousand jc.refreshExpiresMs) now,
         now + jc.refreshExpiresMs)

/-- Prisma errors distinguished by the defensive catch in UsersService.create:
code P2002 is the unique-constraint violation; everything else is a generic
driver failure. -/
inductive PrismaErr where
  | uniqueViolation
  | other (msg : String)
deriving DecidableEq, Repr

/-- UsersRepository.findByUsername: findUnique on the unique username column. -/
def UsersRepository.findByUsername (db : Db) (username : String) : Option UserRec :=
  db.users.find? (fun u => u.username == username)

/-- UsersRepository.findById: findUnique on the primary key. -/
def UsersRepository.findById (db : Db) (userId : String) : Option UserRec :=
  db.users.find? (fun u => u.id == userId)

/-- UsersRepository.create: prisma user.create.  The unique index on username
raises P2002 when a row with the same username already exists; an injected
storage fault raises a generic driver error.  A fresh row starts with the
column defaults of the schema (failedLoginAttempts 0, isActive true, the
nullable protection columns NULL). -/
def UsersRepository.create (db : Db) (username : String) (password : Hashed String) :
    Except PrismaErr (UserRec × Db) :=
  match db.userCreateFault with
  | some msg => .error (.other msg)
  | none =>
    if db.users.any (fun u => u.username == username) then
      .error .uniqueViolation
    else
      let user : UserRec :=
        { id := "u" ++ toString db.nonce, username := username, password := password,
          failedLoginAttempts := 0, lockUntil := none, lastLoginAt := none,
          passwordChangedAt := none, isActive := true, deletedAt := none }
      .ok (user, { db with users := db.users ++ [user], nonce := db.nonce + 1 })

/-- The partial update payload (src/users/models/index.ts, UpdateUserModel).
An outer `none` means the field was not supplied (undefined); for the
nullable columns lockUntil and deletedAt the inner Option distinguishes
clearing (null) from a concrete value. -/
structure UpdateUserModel where
  password : Option (Hashed String) := none
  passwordChangedAt : Option Int := none
  failedLoginAttempts : Option Nat := none
  lockUntil : Option (Option Int) := none
  lastLoginAt : Option Int := none
  isActive : Option Bool := none
  deletedAt : Option (Option Int) := none
deriving DecidableEq, Repr

/-- The data object built by UsersRepository.update: each field enters the
prisma update exactly when its guard in the source passes.  password,
passwordChangedAt and lastLoginAt are guarded by JS truthiness, which for the
values that inhabit them (a bcrypt hash object, Date objects) coincides with
being supplied; failedLoginAttempts, lockUntil, isActive and deletedAt are
guarded by an explicit undefined check, so a supplied null is written and
clears the nullable column. -/
def applyUserUpdate (u : UserRec) (payload : UpdateUserModel) : UserRec :=
  { u with
    password := payload.password.getD u.password,
    passwordChangedAt :=
      match payload.passwordChangedAt with
      | some d => some d
      | none => u.passwordChangedAt,
    failedLoginAttempts := payload.failedLoginAttempts.getD u.failedLoginAttempts,
    lockUntil := payload.lockUntil.getD u.lockUntil,
    lastLoginAt :=
      match payload.lastLoginAt with
      | some d => some d
      | none => u.lastLoginAt,
    isActive := payload.isActive.getD u.isActive,
    deletedAt := payload.deletedAt.getD u.deletedAt }

/-- UsersRepository.update: prisma user.update where id = userId.  Prisma
throws (P2025, a raw error) when no row has that id; otherwise the row is
rewritten in place with the guarded data object. -/
def UsersRepository.update (db : Db) (userId : String) (payload : UpdateUserModel) :
    Except Err (UserRec × Db) :=
  match UsersRepository.findById db userId with
  | none => .error (.raw "P2025: record to update not found")
  | some u =>
    let u' := applyUserUpdate u payload
    .ok (u', { db with users := db.users.map (fun v => if v.id == userId then u' else v) })

/-- UsersService.findByUsername delegates to the repository. -/
def UsersService.findByUsername (db : Db) (username : String) : Option UserRec :=
  UsersRepository.findByUsername db username

/-- UsersService.ensureUsernameNotExists: Conflict when the username is taken. -/
def UsersService.ensureUsernameNotExists (db : Db) (username : String) : Except Err Unit :=
  match UsersService.findByUsername db username with
  | some _ => .error (.conflict "Username already exists")
  | none => .ok ()

/-- UsersService.create: the repository create wrapped in the defensive catch
that translates the P2002 unique violation into the domain Conflict and every
other storage failure into the generic Internal error. -/
def UsersService.create (db : Db) (username : String) (password : Hashed String) :
    Except Err (UserRec × Db) :=
  match UsersRepository.create db username password with
  | .ok r => .ok r
  | .error .uniqueViolation => .error (.conflict "Username already exists")
  | .error (.other _) => .error (.internal "Failed to create user")

/-- UsersService.findUserBydId (named findUserById in the later revision):
find by id, NotFound if absent. -/
def UsersService.findUserBydId (db : Db) (userId : String) : Except Err UserRec :=
  match UsersRepository.findById db userId with
  | none => .error (.notFound "User not found")
  | some u => .ok u

/-- UsersService.ensureAccountNotLocked: Forbidden while now < lockUntil.
Defined in the source but not wired into any call site. -/
def UsersService.ensureAccountNotLocked (user : UserRec) (now : Int) : Except Err Unit :=
  match user.lockUntil with
  | some t => if t > now then .error (.forbidden "Account is temporarily locked") else .ok ()
  | none => .ok ()

/-- UsersService.increaseFailedLogin: load the user (NotFound if absent),
increment the counter, and once the new count reaches MAX_ATTEMPTS = 5 set
lockUntil to now + 15 minutes; persist both fields.  Defined in the source
but never called by AuthService.login. -/
def UsersService.increaseFailedLogin (db : Db) (now : Int) (userId : String) :
    Except Err Db :=
  match UsersService.findUserBydId db userId with
  | .error e => .error e
  | .ok user =>
    let nextFailedAttempts := user.failedLoginAttempts + 1
    let lockUntil : Option Int :=
      if nextFailedAttempts ≥ 5 then some (now + 15 * 60 * 1000) else user.lockUntil
    match UsersRepository.update db userId
        { failedLoginAttempts := some nextFailedAttempts, lockUntil := some lockUntil } with
    | .error e => .error e
    | .ok (_, db') => .ok db'

/-- UsersService.resetFailedLogin: zero the counter and clear lockUntil.
Defined in the source but never called by AuthService.login. -/
def UsersService.resetFailedLogin (db : Db) (userId : String) : Except Err Db :=
  match UsersRepository.update db userId
      { failedLoginAttempts := some 0, lockUntil := some none } with
  | .error e => .error e
  | .ok (_, db') => .ok db'

/-- UsersService.updatelastLogin: record the current time as lastLoginAt.
Defined in the source but never called by AuthService.login. -/
def UsersService.updatelastLogin (db : Db) (now : Int) (userId : String) : Except Err Db :=
  match UsersRepository.update db userId { lastLoginAt := some now } with
  | .error e => .error e
  | .ok (_, db') => .ok db'

/-- AuthRepository.create: insert a fresh token row for (userId, deviceId)
with the given hash and expiry; revokedAt starts NULL, createdAt now. -/
def AuthRepository.create (db : Db) (now : Int) (userId deviceId : String)
    (tokenHash : Hashed Jwt) (expiresAt : Int) : Except Err (TokenRec × Db) :=
  match db.tokenCreateFault with
  | some msg => .error (.raw msg)
  | none =>
    let row : TokenRec :=
      { id := "t" ++ toString db.nonce, userId := userId, deviceId := deviceId,
        tokenHash := tokenHash, expiresAt := expiresAt, revokedAt := none,
        createdAt := now }
    .ok (row, { db with tokens := db.tokens ++ [row], nonce := db.nonce + 1 })

/-- AuthRepository.deleteTokenByUserAndDevice: deleteMany where userId and
deviceId match; deleting nothing is not an error. -/
def AuthRepository.deleteTokenByUserAndDevice (db : Db) (userId deviceId : String) :
    Except Err Db :=
  match db.tokenDeleteFault with
  | some msg => .error (.raw msg)
  | none =>
    .ok { db with tokens :=
      db.tokens.filter (fun t => !(t.userId == userId && t.deviceId == deviceId)) }

/-- AuthRepository.deleteAllTokenUser: deleteMany where userId matches. -/
def AuthRepository.deleteAllTokenUser (db : Db) (userId : String) : Except Err Db :=
  match db.tokenDeleteFault with
  | some msg => .error (.raw msg)
  | none =>
    .ok { db with tokens := db.tokens.filter (fun t => !(t.userId == userId)) }

/-- AuthRepository.findByUserAndDevice: findFirst where userId and deviceId
match.  The where clause mentions neither expiresAt nor revokedAt. -/
def AuthRepository.findByUserAndDevice (db : Db) (userId deviceId : String) :
    Option TokenRec :=
  db.tokens.find? (fun t => t.userId == userId && t.deviceId == deviceId)

/-- AuthRepository.updateRefreshToken: prisma update where id = tokenId,
rewriting tokenHash and expiresAt on that row only.  Prisma throws when no
row has the id. -/
def AuthRepository.updateRefreshToken (db : Db) (tokenId : String)
    (tokenHash : Hashed Jwt) (expiresAt : Int) : Except Err Db :=
  match db.tokenUpdateFault with
  | some msg => .error (.raw msg)
  | none =>
    if db.tokens.any (fun t => t.id == tokenId) then
      .ok { db with tokens := db.tokens.map (fun t =>
        if t.id == tokenId then { t with tokenHash := tokenHash, expiresAt := expiresAt } else t) }
    else
      .error (.raw "P2025: record to update not found")

/-- User summary embedded in authentication responses. -/
structure UserSummary where
  id : String
  username : String
deriving DecidableEq, Repr

/-- AuthUserResponse (src/auth/models/index.ts): user summary plus the raw
access and refresh tokens. -/
structure AuthUserResponse where
  user : UserSummary
  accessToken : Jwt
  refreshToken : Jwt
deriving DecidableEq, Repr

/-- The try block of AuthService.register: ensure the username is free, hash
the password, create the account, sign both tokens, hash the refresh token
and persist the Device Token row for (userId, deviceId). -/
def AuthService.registerTry (cfg : Config) (db : Db) (now : Int)
    (username password deviceId : String) : Except Err AuthUserResponse × Db :=
  match UsersService.ensureUsernameNotExists db username with
  | .error e => (.error e, db)
  | .ok _ =>
    let (passwordHash, db1) := bcryptHash password db
    match UsersService.create db1 username passwordHash with
    | .error e => (.error e, db1)
    | .ok (user, db2) =>
      let payload : AccessTokenPayload := { sub := user.id, username := user.username }
      match AuthService.generateAccessToken cfg payload now with
      | .error e => (.error e, db2)
      | .ok accessToken =>
        match AuthService.generateRefreshToken cfg payload now with
        | .error e => (.error e, db2)
        | .ok (refreshToken, refreshExpiresAt) =>
          let (refreshTokenHash, db3) := bcryptHash refreshToken db2
          match AuthRepository.create db3 now user.id deviceId refreshTokenHash refreshExpiresAt with
          | .error e => (.error e, db3)
          | .ok (_, db4) =>
            (.ok { user := { id := user.id, username := user.username },
                   accessToken := accessToken, refreshToken := refreshToken }, db4)

/-- AuthService.register: the try body under the operation-boundary catch —
a ConflictException is re-thrown unchanged, any other failure is replaced by
the generic Internal error.  Writes made before the failure persist. -/
def AuthService.register (cfg : Config) (db : Db) (now : Int)
    (username password deviceId : String) : Except Err AuthUserResponse × Db :=
  match AuthService.registerTry cfg db now username password deviceId with
  | (.error (.conflict m), db') => (.error (.conflict m), db')
  | (.error _, db') => (.error (.internal "Failed to register user"), db')
  | ok => ok

/-- AuthService.login: look up the account, verify the password, sign both
tokens, delete every existing token row for (userId, deviceId) and insert the
new one.  There is no operation-boundary catch and no call to the
account-protection helpers (increaseFailedLogin / resetFailedLogin /
updatelastLogin / ensureAccountNotLocked). -/
def AuthService.login (cfg : Config) (db : Db) (now : Int)
    (username password deviceId : String) : Except Err AuthUserResponse × Db :=
  match UsersService.findByUsername db username with
  | none => (.error (.unauthorized "Invalid username or password"), db)
  | some user =>
    if bcryptCompare password user.password then
      let payload : AccessTokenPayload := { sub := user.id, username := user.username }
      match AuthService.generateAccessToken cfg payload now with
      | .error e => (.error e, db)
      | .ok accessToken =>
        match AuthService.generateRefreshToken cfg payload now with
        | .error e => (.error e, db)
        | .ok (refreshToken, expiresAt) =>
          match AuthRepository.deleteTokenByUserAndDevice db user.id deviceId with
          | .error e => (.error e, db)
          | .ok db1 =>
            let (refreshTokenHash, db2) := bcryptHash refreshToken db1
            match AuthRepository.create db2 now user.id deviceId refreshTokenHash expiresAt with
            | .error e => (.error e, db2)
            | .ok (_, db3) =>
              (.ok { user := { id := user.id, username := user.username },
                     accessToken := accessToken, refreshToken := refreshToken }, db3)
    else
      (.error (.unauthorized "Invalid username or password"), db)

/-- AuthService.refreshToken: find the token row for (userId, deviceId) —
Unauthorized if absent; verify the raw token against the stored hash —
Unauthorized if mismatch; load the user for the response; sign new tokens and
rotate the row in place, addressed by the row id.  No boundary catch. -/
def AuthService.refreshToken (cfg : Config) (db : Db) (now : Int)
    (userId deviceId : String) (refreshToken : Jwt) : Except Err AuthUserResponse × Db :=
  match AuthRepository.findByUserAndDevice db userId deviceId with
  | none => (.error (.unauthorized "Invalid refresh token"), db)
  | some tokenRecord =>
    if bcryptCompare refreshToken tokenRecord.tokenHash then
      match UsersService.findUserBydId db userId with
      | .error e => (.error e, db)
      | .ok user =>
        let payload : AccessTokenPayload := { sub := user.id, username := user.username }
        match AuthService.generateAccessToken cfg payload now with
        | .error e => (.error e, db)
        | .ok accessToken =>
          match AuthService.generateRefreshToken cfg payload now with
          | .error e => (.error e, db)
          | .ok (newRefreshToken, expiresAt) =>
            let (newHash, db1) := bcryptHash newRefreshToken db
            match AuthRepository.updateRefreshToken db1 tokenRecord.id newHash expiresAt with
            | .error e => (.error e, db1)
            | .ok db2 =>
              (.ok { user := { id := user.id, username := user.username },
                     accessToken := accessToken, refreshToken := newRefreshToken }, db2)
    else
      (.error (.unauthorized "Invalid refresh token"), db)

/-- AuthService.logout: `type?` is the request-body type field, `none` when
omitted; the parameter default and the null-coalescing in the source both
resolve a missing value to "current".  An unrecognized type fails validation;
"all_devices" deletes every row of the user; "current" deletes the rows for
(userId, deviceId).  The two source ifs are exclusive after validation, so
they are rendered as an if/else chain. -/
def AuthService.logout (db : Db) (userId deviceId : String) (type? : Option String) :
    Except Err Unit × Db :=
  let resolvedType := type?.getD "current"
  if resolvedType != "current" && resolvedType != "all_devices" then
    (.error (.badRequest "Invalid logout type. Allowed values: current, all_devices"), db)
  else if resolvedType == "all_devices" then
    match AuthRepository.deleteAllTokenUser db userId with
    | .error e => (.error e, db)
    | .ok db1 => (.ok (), db1)
  else
    match AuthRepository.deleteTokenByUserAndDevice db userId deviceId with
    | .error e => (.error e, db)
    | .ok db1 => (.ok (), db1)

/-! ### Shared concrete fixtures used by witnesses and exhibits -/

/-- A well-formed JWT configuration: both secrets set, expiries "1h" and "30d". -/
def cfgGood : Config :=
  { accessSecret := some "as", refreshSecret := some "rs",
    accessExpiresIn := some "1h", refreshExpiresIn := some "30d" }

/-- An account with three failed attempts already recorded and a stale lock. -/
def userJohn : UserRec :=
  { id := "u1", username := "john", password := ⟨"Password1!", 0⟩,
    failedLoginAttempts := 3, lockUntil := some 99, lastLoginAt := none,
    passwordChangedAt := none, isActive := true, deletedAt := none }

/-- A healthy database holding only that account. -/
def dbJohn : Db := { users := [userJohn], tokens := [], nonce := 1 }

/-! ### Helper lemmas -/

/-- parseDuration only fails with a raw TypeError. -/
lemma parseDuration_error_shape (v : String) (e : Err)
    (h : parseDuration v = .error e) : ∃ m, e = Err.raw m := by
  unfold parseDuration at h
  split at h
  · simp at h
  · injection h with h
    exact ⟨_, h.symm⟩

/-- getJwtConfig only fails with the Internal configuration error or a raw
parse TypeError; in particular never with Unauthorized or Conflict. -/
lemma getJwtConfig_error_shape (cfg : Config) (e : Err)
    (h : AuthService.getJwtConfig cfg = .error e) :
    e = Err.internal "JWT configuration is missing" ∨ ∃ m, e = Err.raw m := by
  unfold AuthService.getJwtConfig at h
  split at h
  · injection h with h
    exact Or.inl h.symm
  · split at h
    case _ e' he' =>
      injection h with h
      exact Or.inr (h ▸ parseDuration_error_shape _ _ he')
    case _ =>
      split at h
      case _ e' he' =>
        injection h with h
        exact Or.inr (h ▸ parseDuration_error_shape _ _ he')
      case _ => simp at h

/-- generateAccessToken inherits the getJwtConfig failure shapes. -/
lemma generateAccessToken_error_shape (cfg : Config) (p : AccessTokenPayload)
    (now : Int) (e : Err) (h : AuthService.generateAccessToken cfg p now = .error e) :
    e = Err.internal "JWT configuration is missing" ∨ ∃ m, e = Err.raw m := by
  unfold AuthService.generateAccessToken at h
  split at h
  case _ e' he' =>
    injection h with h
    exact h ▸ getJwtConfig_error_shape _ _ he'
  case _ => simp at h

/-- generateRefreshToken inherits the getJwtConfig failure shapes. -/
lemma generateRefreshToken_error_shape (cfg : Config) (p : AccessTokenPayload)
    (now : Int) (e : Err) (h : AuthService.generateRefreshToken cfg p now = .error e) :
    e = Err.internal "JWT configuration is missing" ∨ ∃ m, e = Err.raw m := by
  unfold AuthService.generateRefreshToken at h
  split at h
  case _ e' he' =>
    injection h with h
    exact h ▸ getJwtConfig_error_shape _ _ he'
  case _ => simp at h

/-- updateRefreshToken only fails with raw storage errors. -/
lemma updateRefreshToken_error_shape (db : Db) (tid : String) (hsh : Hashed Jwt)
    (exp : Int) (e : Err) (h : AuthRepository.updateRefreshToken db tid hsh exp = .error e) :
    ∃ m, e = Err.raw m := by
  unfold AuthRepository.updateRefreshToken at h
  split at h
  · injection h with h
    exact ⟨_, h.symm⟩
  · split at h
    · simp at h
    · injection h with h
      exact ⟨_, h.symm⟩

/-- findUserBydId only fails with NotFound. -/
lemma findUserBydId_error_shape (db : Db) (uid : String) (e : Err)
    (h : UsersService.findUserBydId db uid = .error e) :
    e = Err.notFound "User not found" := by
  unfold UsersService.findUserBydId at h
  split at h
  · injection h with h
    exact h.symm
  · simp at h

/-- Once the token row was found and the hash matched, refreshToken never
fails with Unauthorized (later failures are NotFound, Internal or raw). -/
lemma refreshToken_no_unauthorized_after_match (cfg : Config) (db : Db) (now : Int)
    (userId deviceId : String) (tok : Jwt) (r : TokenRec)
    (hfind : AuthRepository.findByUserAndDevice db userId deviceId = some r)
    (hcmp : bcryptCompare tok r.tokenHash = true) (m : String) :
    (AuthService.refreshToken cfg db now userId deviceId tok).1
      ≠ .error (.unauthorized m) := by
  unfold AuthService.refreshToken
  rw [hfind]
  simp only [hcmp, if_true]
  split
  next e he =>
    have hshape := findUserBydId_error_shape _ _ _ he
    simp [hshape]
  next user hu =>
    split
    next e he =>
      rcases generateAccessToken_error_shape _ _ _ _ he with h | ⟨m2, h⟩ <;> simp [h]
    next at' ha =>
      split
      next e he =>
        rcases generateRefreshToken_error_shape _ _ _ _ he with h | ⟨m2, h⟩ <;> simp [h]
      next newTok exp hr =>
        split
        next e he =>
          obtain ⟨m2, h⟩ := updateRefreshToken_error_shape _ _ _ _ _ he
          simp [h]
        next db2 hdb2 => simp

/-- C2: refreshToken(userId, deviceId, rawRefreshToken) fails with
Unauthorized ("Invalid refresh token") if and only if either no Device Token
row exists for (userId, deviceId) or the raw token does not verify against
the stored tokenHash; in either failure case no stored state is modified. -/
theorem c2_refresh_unauthorized_iff (cfg : Config) (db : Db) (now : Int)
    (userId deviceId : String) (tok : Jwt) :
    ((AuthService.refreshToken cfg db now userId deviceId tok).1
        = .error (.unauthorized "Invalid refresh token")
      ↔ (AuthRepository.findByUserAndDevice db userId deviceId = none
         ∨ ∃ r, AuthRepository.findByUserAndDevice db userId deviceId = some r
             ∧ bcryptCompare tok r.tokenHash = false))
    ∧ ((AuthRepository.findByUserAndDevice db userId deviceId = none
        ∨ ∃ r, AuthRepository.findByUserAndDevice db userId deviceId = some r
            ∧ bcryptCompare tok r.tokenHash = false)
       → AuthService.refreshToken cfg db now userId deviceId tok
          = (.error (.unauthorized "Invalid refresh token"), db)) := by
  cases hfind : AuthRepository.findByUserAndDevice db userId deviceId with
  | none =>
    constructor
    · constructor
      · intro _; exact Or.inl rfl
      · intro _
        unfold AuthService.refreshToken
        rw [hfind]
    · intro _
      unfold AuthService.refreshToken
      rw [hfind]
  | some r =>
    cases hcmp : bcryptCompare tok r.tokenHash with
    | false =>
      have heq : AuthService.refreshToken cfg db now userId deviceId tok
          = (.error (.unauthorized "Invalid refresh token"), db) := by
        unfold AuthService.refreshToken
        rw [hfind]
        simp only [hcmp]
        rfl
      constructor
      · constructor
        · intro _; exact Or.inr ⟨r, rfl, hcmp⟩
        · intro _; rw [heq]
      · intro _; exact heq
    | true =>
      have hne := refreshToken_no_unauthorized_after_match cfg db now userId deviceId
        tok r hfind hcmp "Invalid refresh token"
      constructor
      · constructor
        · intro h; exact absurd h hne
        · rintro (h | ⟨r', hr', hc'⟩)
          · simp at h
          · obtain rfl := (Option.some.inj hr').symm
            rw [hcmp] at hc'
            simp at hc'
      · rintro (h | ⟨r', hr', hc'⟩)
        · simp at h
        · obtain rfl := (Option.some.inj hr').symm
          rw [hcmp] at hc'
          simp at hc'

/-- The success path of refreshToken, fully evaluated: when the row is found,
the hash matches, the user exists, the configuration is valid and storage is
healthy, the call returns the new token pair and the database in which the
found row — addressed by its own id — carries the fresh hash and expiry. -/
lemma refreshToken_success_eq (cfg : Config) (db : Db) (now : Int)
    (userId deviceId : String) (tok : Jwt) (r : TokenRec) (u : UserRec) (jc : JwtConfig)
    (hfind : AuthRepository.findByUserAndDevice db userId deviceId = some r)
    (hcmp : bcryptCompare tok r.tokenHash = true)
    (huser : UsersRepository.findById db userId = some u)
    (hcfg : AuthService.getJwtConfig cfg = .ok jc)
    (hfault : db.tokenUpdateFault = none) :
    AuthService.refreshToken cfg db now userId deviceId tok =
      (.ok { user := { id := u.id, username := u.username },
             accessToken := signJwt ⟨u.id, u.username⟩ jc.accessSecret
               (floorDivThousand jc.accessExpiresMs) now,
             refreshToken := signJwt ⟨u.id, u.username⟩ jc.refreshSecret
               (floorDivThousand jc.refreshExpiresMs) now },
       { db with
         nonce := db.nonce + 1
         tokens := db.tokens.map (fun t =>
           if t.id == r.id then
             { t with
               tokenHash := ⟨signJwt ⟨u.id, u.username⟩ jc.refreshSecret
                 (floorDivThousand jc.refreshExpiresMs) now, db.nonce⟩
               expiresAt := now + jc.refreshExpiresMs }
           else t) }) := by
  have hmem : r ∈ db.tokens := List.mem_of_find?_eq_some hfind
  have hany : db.tokens.any (fun t => t.id == r.id) = true :=
    List.any_eq_true.mpr ⟨r, hmem, beq_self_eq_true r.id⟩
  unfold AuthService.refreshToken
  rw [hfind]
  simp only [hcmp, if_true]
  unfold UsersService.findUserBydId
  rw [huser]
  unfold AuthService.generateAccessToken AuthService.generateRefreshToken
  rw [hcfg]
  unfold bcryptHash AuthRepository.updateRefreshToken
  simp only [hfault, hany, if_true]

/-- Boolean classifier: is this outcome a success. -/
def exceptIsOk : Except Err AuthUserResponse → Bool
  | .ok _ => true
  | .error _ => false

/-- Boolean classifier: is this outcome the generic Internal error. -/
def exceptIsInternal : Except Err AuthUserResponse → Bool
  | .error (.internal _) => true
  | _ => false

/-- C3: a successful refresh rotates the found Device Token row in place:
the database keeps the same token list shape (a map over the old list, so
nothing is deleted or inserted), the update is keyed on the own id of the row,
the untouched fields (id, userId, deviceId, createdAt, revokedAt) are carried
over by the row rewrite, and the fresh hash and expiry differ from the
pre-refresh values. -/
theorem c3_refresh_rotates_in_place (cfg : Config) (db : Db) (now : Int)
    (userId deviceId : String) (tok : Jwt) (r : TokenRec) (u : UserRec) (jc : JwtConfig)
    (hfind : AuthRepository.findByUserAndDevice db userId deviceId = some r)
    (hcmp : bcryptCompare tok r.tokenHash = true)
    (huser : UsersRepository.findById db userId = some u)
    (hcfg : AuthService.getJwtConfig cfg = .ok jc)
    (hfault : db.tokenUpdateFault = none)
    (hfresh : ∀ t ∈ db.tokens, t.tokenHash.salt < db.nonce)
    (hexp : r.expiresAt ≠ now + jc.refreshExpiresMs) :
    AuthService.refreshToken cfg db now userId deviceId tok =
      (.ok { user := { id := u.id, username := u.username },
             accessToken := signJwt ⟨u.id, u.username⟩ jc.accessSecret
               (floorDivThousand jc.accessExpiresMs) now,
             refreshToken := signJwt ⟨u.id, u.username⟩ jc.refreshSecret
               (floorDivThousand jc.refreshExpiresMs) now },
       { db with
         nonce := db.nonce + 1
         tokens := db.tokens.map (fun t =>
           if t.id == r.id then
             { t with
               tokenHash := ⟨signJwt ⟨u.id, u.username⟩ jc.refreshSecret
                 (floorDivThousand jc.refreshExpiresMs) now, db.nonce⟩
               expiresAt := now + jc.refreshExpiresMs }
           else t) })
    ∧ (⟨signJwt ⟨u.id, u.username⟩ jc.refreshSecret
         (floorDivThousand jc.refreshExpiresMs) now, db.nonce⟩ : Hashed Jwt)
        ≠ r.tokenHash
    ∧ now + jc.refreshExpiresMs ≠ r.expiresAt
    ∧ (db.tokens.map (fun t =>
           if t.id == r.id then
             { t with
               tokenHash := ⟨signJwt ⟨u.id, u.username⟩ jc.refreshSecret
                 (floorDivThousand jc.refreshExpiresMs) now, db.nonce⟩
               expiresAt := now + jc.refreshExpiresMs }
           else t)).length = db.tokens.length := by
  have hmem : r ∈ db.tokens := List.mem_of_find?_eq_some hfind
  refine ⟨refreshToken_success_eq cfg db now userId deviceId tok r u jc
    hfind hcmp huser hcfg hfault, ?_, fun h => hexp h.symm, List.length_map _ _⟩
  intro hEq
  have hsalt := congrArg Hashed.salt hEq
  simp only at hsalt
  exact absurd hsalt.symm (Nat.ne_of_lt (hfresh r hmem))

/-- C4: the stored expiresAt and revokedAt of the looked-up row are never
consulted: even with expiresAt strictly in the past and revokedAt set, a
matching raw token makes the refresh succeed and rotate the row. -/
theorem c4_refresh_ignores_expiry_and_revocation (cfg : Config) (db : Db) (now : Int)
    (userId deviceId : String) (tok : Jwt) (r : TokenRec) (u : UserRec) (jc : JwtConfig)
    (hfind : AuthRepository.findByUserAndDevice db userId deviceId = some r)
    (hcmp : bcryptCompare tok r.tokenHash = true)
    (huser : UsersRepository.findById db userId = some u)
    (hcfg : AuthService.getJwtConfig cfg = .ok jc)
    (hfault : db.tokenUpdateFault = none)
    (hexpired : r.expiresAt < now)
    (hrevoked : r.revokedAt ≠ none) :
    exceptIsOk (AuthService.refreshToken cfg db now userId deviceId tok).1 = true
    ∧ (AuthService.refreshToken cfg db now userId deviceId tok).2.tokens.length
        = db.tokens.length := by
  rw [refreshToken_success_eq cfg db now userId deviceId tok r u jc
    hfind hcmp huser hcfg hfault]
  simp [exceptIsOk]

/-- A raw refresh JWT as issued earlier to user u1 on device d1. -/
def jwtOld : Jwt :=
  { sub := "u1", username := "john", secret := "rs", expiresIn := 100, iat := 5 }

/-- A stored token row for (u1, d1) that is both expired and revoked. -/
def tokenOld : TokenRec :=
  { id := "t0", userId := "u1", deviceId := "d1", tokenHash := ⟨jwtOld, 0⟩,
    expiresAt := 500, revokedAt := some 400, createdAt := 10 }

/-- A database holding the account and that token row. -/
def dbTok : Db := { users := [userJohn], tokens := [tokenOld], nonce := 1 }

/-- The parsed form of cfgGood. -/
def jcGood : JwtConfig :=
  { accessSecret := "as", refreshSecret := "rs",
    accessExpiresMs := 3600000, refreshExpiresMs := 2592000000 }

theorem c2_witness :
    AuthService.refreshToken cfgGood dbJohn 1000 "u1" "d1" jwtOld
      = (.error (.unauthorized "Invalid refresh token"), dbJohn) :=
  (c2_refresh_unauthorized_iff cfgGood dbJohn 1000 "u1" "d1" jwtOld).2 (Or.inl rfl)

theorem c3_witness :
    (⟨signJwt ⟨userJohn.id, userJohn.username⟩ jcGood.refreshSecret
        (floorDivThousand jcGood.refreshExpiresMs) 1000, dbTok.nonce⟩ : Hashed Jwt)
      ≠ tokenOld.tokenHash
    ∧ (1000 : Int) + jcGood.refreshExpiresMs ≠ tokenOld.expiresAt :=
  ⟨(c3_refresh_rotates_in_place cfgGood dbTok 1000 "u1" "d1" jwtOld tokenOld userJohn
      jcGood rfl (by decide) rfl (by decide) rfl
      (List.forall_mem_singleton.mpr (by decide)) (by decide)).2.1,
   (c3_refresh_rotates_in_place cfgGood dbTok 1000 "u1" "d1" jwtOld tokenOld userJohn
      jcGood rfl (by decide) rfl (by decide) rfl
      (List.forall_mem_singleton.mpr (by decide)) (by decide)).2.2.1⟩

theorem c4_witness :
    tokenOld.expiresAt < 1000 ∧ tokenOld.revokedAt ≠ none
    ∧ exceptIsOk (AuthService.refreshToken cfgGood dbTok 1000 "u1" "d1" jwtOld).1 = true :=
  ⟨by decide, by decide,
   (c4_refresh_ignores_expiry_and_revocation cfgGood dbTok 1000 "u1" "d1" jwtOld
      tokenOld userJohn jcGood rfl (by decide) rfl (by decide) rfl
      (by decide) (by decide)).1⟩

/-- The same account one failed attempt away from the lockout threshold. -/
def userJohn4 : UserRec := { userJohn with failedLoginAttempts := 4 }

/-- Database holding that account. -/
def dbJohn4 : Db := { dbJohn with users := [userJohn4] }

/-- C1 exhibit: the login flow never touches the account-protection state.
A failed password comparison returns Unauthorized with the database unchanged
(the counter stays at 3, no lock is set), and a successful login leaves
failedLoginAttempts, lockUntil and lastLoginAt exactly as they were.  The
UsersService helpers implement precisely the increment / lock-at-5 /
reset / record-last-login semantics the claim describes, but login does not
call them. -/
theorem c1_login_never_updates_protection_state :
    (AuthService.login cfgGood dbJohn 1000 "john" "wrong" "d1"
      = (.error (.unauthorized "Invalid username or password"), dbJohn))
    ∧ ((AuthService.login cfgGood dbJohn 1000 "john" "Password1!" "d1").2.users
      = [userJohn])
    ∧ (UsersService.increaseFailedLogin dbJohn 1000 "u1"
      = .ok { dbJohn with users := [{ userJohn with failedLoginAttempts := 4 }] })
    ∧ (UsersService.increaseFailedLogin dbJohn4 1000 "u1"
      = .ok { dbJohn4 with users :=
          [{ userJohn4 with failedLoginAttempts := 5, lockUntil := some 901000 }] })
    ∧ (UsersService.resetFailedLogin dbJohn "u1"
      = .ok { dbJohn with users :=
          [{ userJohn with failedLoginAttempts := 0, lockUntil := none }] })
    ∧ (UsersService.updatelastLogin dbJohn 1000 "u1"
      = .ok { dbJohn with users := [{ userJohn with lastLoginAt := some 1000 }] }) := by
  refine ⟨by decide, by decide, by decide, by decide, by decide, by decide⟩

/-- Filtering with p after keeping only the elements refuting p yields nothing. -/
lemma filter_of_filter_not {α : Type} (p : α → Bool) (xs : List α) :
    (xs.filter (fun a => !(p a))).filter p = [] := by
  induction xs with
  | nil => rfl
  | cons x xs ih =>
    by_cases hx : p x = true
    · simp [List.filter, hx, ih]
    · simp only [Bool.not_eq_true] at hx
      simp [List.filter, hx, ih]

/-- C5: every successful login leaves exactly one Device Token row for the
logged-in (account, device) pair, whatever the prior state: login deletes
every row for the pair and then inserts the fresh one.  Applied after the
last of any sequence of successful logins from the same pair, this gives the
at-most-one invariant of the claim. -/
theorem c5_at_most_one_token_per_device (cfg : Config) (db : Db) (now : Int)
    (username password deviceId : String) (resp : AuthUserResponse) (db' : Db)
    (h : AuthService.login cfg db now username password deviceId = (.ok resp, db')) :
    (db'.tokens.filter (fun t =>
        t.userId == resp.user.id && t.deviceId == deviceId)).length = 1 := by
  unfold AuthService.login at h
  cases hfu : UsersService.findByUsername db username with
  | none => rw [hfu] at h; simp at h
  | some user =>
    rw [hfu] at h
    simp only [] at h
    cases hcmp : bcryptCompare password user.password with
    | false => rw [hcmp] at h; simp at h
    | true =>
      rw [hcmp] at h
      simp only [if_true] at h
      cases hga : AuthService.generateAccessToken cfg
          { sub := user.id, username := user.username } now with
      | error e => rw [hga] at h; simp at h
      | ok accessToken =>
        rw [hga] at h
        cases hgr : AuthService.generateRefreshToken cfg
            { sub := user.id, username := user.username } now with
        | error e => rw [hgr] at h; simp at h
        | ok pr =>
          obtain ⟨rt, exp⟩ := pr
          rw [hgr] at h
          simp only [] at h
          unfold AuthRepository.deleteTokenByUserAndDevice at h
          cases hfault : db.tokenDeleteFault with
          | some m => rw [hfault] at h; simp at h
          | none =>
            rw [hfault] at h
            simp only [bcryptHash] at h
            unfold AuthRepository.create at h
            cases hcf : db.tokenCreateFault with
            | some m => rw [hcf] at h; simp at h
            | none =>
              rw [hcf] at h
              simp only [Prod.mk.injEq] at h
              obtain ⟨h1, h2⟩ := h
              injection h1 with h1
              subst h1
              subst h2
              simp only [List.filter_append]
              rw [filter_of_filter_not
                (fun t => t.userId == user.id && t.deviceId == deviceId) db.tokens]
              simp

/-- An empty healthy database. -/
def dbEmpty : Db := { users := [], tokens := [], nonce := 0 }

/-- A database whose user-create storage path is failing generically. -/
def dbFaultUser : Db :=
  { users := [], tokens := [], nonce := 0, userCreateFault := some "disk full" }

/-- C6: registering a taken username fails with Conflict, on both detection
paths: the first register succeeds and the second fails with Conflict via the
pre-check; and when the pre-check is bypassed (the race the unique index
guards against), the storage-level P2002 violation is translated to the same
domain Conflict, while a generic storage failure is translated to the
distinct Internal error. -/
theorem c6_duplicate_username_conflict :
    (exceptIsOk (AuthService.register cfgGood dbEmpty 1000 "john" "Password1!" "d1").1
      = true)
    ∧ ((AuthService.register cfgGood
          (AuthService.register cfgGood dbEmpty 1000 "john" "Password1!" "d1").2
          1001 "john" "Password2!" "d2").1
        = .error (.conflict "Username already exists"))
    ∧ (∀ (db : Db) (username : String) (hsh : Hashed String),
        db.userCreateFault = none →
        (∃ u ∈ db.users, u.username = username) →
        UsersService.create db username hsh = .error (.conflict "Username already exists"))
    ∧ (∀ (db : Db) (username : String) (hsh : Hashed String) (m : String),
        db.userCreateFault = some m →
        UsersService.create db username hsh = .error (.internal "Failed to create user"))
    ∧ (∀ m1 m2, Err.conflict m1 ≠ Err.internal m2) := by
  refine ⟨by decide, by decide, ?_, ?_, fun m1 m2 h => Err.noConfusion h⟩
  · rintro db username hsh hfault ⟨u, hu, huname⟩
    have hany : db.users.any (fun v => v.username == username) = true :=
      List.any_eq_true.mpr ⟨u, hu, by simp [huname]⟩
    unfold UsersService.create UsersRepository.create
    rw [hfault, hany]
    simp
  · intro db username hsh m hfault
    unfold UsersService.create UsersRepository.create
    rw [hfault]

theorem c6_witness :
    UsersService.create dbJohn "john" ⟨"x", 9⟩
      = .error (.conflict "Username already exists")
    ∧ UsersService.create dbFaultUser "john" ⟨"x", 9⟩
      = .error (.internal "Failed to create user") :=
  ⟨c6_duplicate_username_conflict.2.2.1 dbJohn "john" ⟨"x", 9⟩ rfl
      ⟨userJohn, by decide, rfl⟩,
   c6_duplicate_username_conflict.2.2.2.1 dbFaultUser "john" ⟨"x", 9⟩ "disk full" rfl⟩

/-- A database where inserting a token row fails with a raw driver error. -/
def dbFaultCreate : Db :=
  { users := [userJohn], tokens := [], nonce := 1, tokenCreateFault := some "DB down" }

/-- A database where deleting token rows fails with a raw driver error. -/
def dbFaultDelete : Db :=
  { users := [userJohn], tokens := [], nonce := 1, tokenDeleteFault := some "DB down" }

/-- C7 counterexample: with a valid username and password but a failing
storage insert, login surfaces the raw driver error to its caller instead of
the generic Internal error — there is no catch at the login boundary. -/
theorem c7_counterexample :
    (AuthService.login cfgGood dbFaultCreate 1000 "john" "Password1!" "d1").1
      = .error (.raw "DB down")
    ∧ exceptIsInternal
        (AuthService.login cfgGood dbFaultCreate 1000 "john" "Password1!" "d1").1
      = false := by
  refine ⟨by decide, by decide⟩

/-- C7 amended: only register has the operation-boundary catch — its failures
are always either a Conflict passed through unchanged or the generic Internal
error.  login and logout (and refreshToken alike) have no boundary catch:
domain errors pass through, but raw storage errors also propagate unchanged. -/
theorem c7_error_propagation_amended :
    (∀ (cfg : Config) (db : Db) (now : Int) (username password deviceId : String)
        (e : Err),
      (AuthService.register cfg db now username password deviceId).1 = .error e →
      (∃ m, e = Err.conflict m) ∨ e = Err.internal "Failed to register user")
    ∧ (∀ (cfg : Config) (db : Db) (now : Int) (username password deviceId m : String)
          (user : UserRec) (jc : JwtConfig),
        UsersService.findByUsername db username = some user →
        bcryptCompare password user.password = true →
        AuthService.getJwtConfig cfg = .ok jc →
        db.tokenDeleteFault = none →
        db.tokenCreateFault = some m →
        (AuthService.login cfg db now username password deviceId).1
          = .error (.raw m))
    ∧ (∀ (db : Db) (userId deviceId m : String),
        db.tokenDeleteFault = some m →
        (AuthService.logout db userId deviceId none).1 = .error (.raw m)) := by
  refine ⟨?_, ?_, ?_⟩
  · intro cfg db now username password deviceId e h
    unfold AuthService.register at h
    rcases hr : AuthService.registerTry cfg db now username password deviceId
      with ⟨res, db2⟩
    rw [hr] at h
    cases res with
    | ok v => simp at h
    | error e' =>
      cases e' with
      | conflict m =>
        simp only [] at h
        injection h with h
        exact Or.inl ⟨m, h.symm⟩
      | unauthorized m => right; injection h with h; exact h.symm
      | forbidden m => right; injection h with h; exact h.symm
      | badRequest m => right; injection h with h; exact h.symm
      | notFound m => right; injection h with h; exact h.symm
      | internal m => right; injection h with h; exact h.symm
      | raw m => right; injection h with h; exact h.symm
  · intro cfg db now username password deviceId m user jc hfu hcmp hcfg hdel hcr
    unfold AuthService.login
    rw [hfu]
    simp only [hcmp, if_true]
    unfold AuthService.generateAccessToken AuthService.generateRefreshToken
    rw [hcfg]
    unfold AuthRepository.deleteTokenByUserAndDevice
    rw [hdel]
    simp only [bcryptHash]
    unfold AuthRepository.create
    simp only [hcr]
  · intro db userId deviceId m hfault
    unfold AuthService.logout AuthRepository.deleteTokenByUserAndDevice
    rw [hfault]
    rfl

theorem c7_witness :
    (AuthService.login cfgGood dbFaultCreate 1000 "john" "Password1!" "d1").1
      = .error (.raw "DB down")
    ∧ (AuthService.logout dbFaultDelete "u1" "d1" none).1 = .error (.raw "DB down") :=
  ⟨c7_error_propagation_amended.2.1 cfgGood dbFaultCreate 1000 "john" "Password1!" "d1"
      "DB down" userJohn jcGood rfl (by decide) (by decide) rfl rfl,
   c7_error_propagation_amended.2.2 dbFaultDelete "u1" "d1" "DB down" rfl⟩

/-- C8: logout with type omitted equals logout with "current"; "current"
removes exactly the rows of (userId, deviceId) and keeps every other row
(in particular the same user's other devices); "all_devices" removes exactly
the rows owned by userId; any other type string fails validation and deletes
nothing; and an empty result set is not an error (idempotence: the success
outcome does not depend on a row existing). -/
theorem c8_logout_behavior (db : Db) (userId deviceId : String)
    (hfault : db.tokenDeleteFault = none) :
    (AuthService.logout db userId deviceId none
      = AuthService.logout db userId deviceId (some "current"))
    ∧ (∃ db1, AuthService.logout db userId deviceId (some "current") = (.ok (), db1)
        ∧ ∀ t, t ∈ db1.tokens
            ↔ t ∈ db.tokens ∧ ¬(t.userId = userId ∧ t.deviceId = deviceId))
    ∧ (∃ db2, AuthService.logout db userId deviceId (some "all_devices") = (.ok (), db2)
        ∧ ∀ t, t ∈ db2.tokens ↔ t ∈ db.tokens ∧ t.userId ≠ userId)
    ∧ (∀ ty, ty ≠ "current" → ty ≠ "all_devices" →
        AuthService.logout db userId deviceId (some ty)
          = (.error (.badRequest "Invalid logout type. Allowed values: current, all_devices"),
             db)) := by
  refine ⟨rfl, ?_, ?_, ?_⟩
  · refine ⟨{ db with tokens :=
        db.tokens.filter (fun t => !(t.userId == userId && t.deviceId == deviceId)) },
      ?_, ?_⟩
    · unfold AuthService.logout AuthRepository.deleteTokenByUserAndDevice
      rw [hfault]
      rfl
    · intro t
      simp only [List.mem_filter, Bool.not_eq_true', Bool.and_eq_false_iff,
        beq_iff_eq, beq_eq_false_iff_ne]
      tauto
  · refine ⟨{ db with tokens := db.tokens.filter (fun t => !(t.userId == userId)) },
      ?_, ?_⟩
    · unfold AuthService.logout AuthRepository.deleteAllTokenUser
      rw [hfault]
      rfl
    · intro t
      simp [List.mem_filter]
  · intro ty h1 h2
    unfold AuthService.logout
    have hb1 : (ty != "current") = true := bne_iff_ne.mpr h1
    have hb2 : (ty != "all_devices") = true := bne_iff_ne.mpr h2
    simp only [Option.getD, hb1, hb2, Bool.and_self, if_true]

theorem c8_witness :
    (AuthService.logout dbTok "u1" "d1" (some "current")).2.tokens = []
    ∧ AuthService.logout dbTok "u1" "d1" (some "sideways")
        = (.error (.badRequest "Invalid logout type. Allowed values: current, all_devices"),
           dbTok) := by
  obtain ⟨db1, heq, hmem⟩ := (c8_logout_behavior dbTok "u1" "d1" rfl).2.1
  refine ⟨?_, (c8_logout_behavior dbTok "u1" "d1" rfl).2.2.2 "sideways"
    (by decide) (by decide)⟩
  rw [heq]
  refine List.eq_nil_iff_forall_not_mem.mpr fun t ht => ?_
  obtain ⟨htmem, hne⟩ := (hmem t).mp ht
  have ht0 : t = tokenOld := by simpa [dbTok] using htmem
  subst ht0
  exact hne ⟨rfl, rfl⟩

/-- C9: the partial account update writes a field exactly when the payload
supplies it; a supplied null clears lockUntil / deletedAt, which is distinct
from omitting them; identity fields and all other rows are untouched. -/
theorem c9_partial_update_fields (db : Db) (userId : String)
    (payload : UpdateUserModel) (u : UserRec)
    (hfind : UsersRepository.findById db userId = some u) :
    ((UsersRepository.update db userId payload).toOption.isSome = true)
    ∧ (∀ u' db', UsersRepository.update db userId payload = .ok (u', db')
      → (∀ v, payload.password = some v → u'.password = v)
      ∧ (payload.password = none → u'.password = u.password)
      ∧ (∀ v, payload.passwordChangedAt = some v → u'.passwordChangedAt = some v)
      ∧ (payload.passwordChangedAt = none → u'.passwordChangedAt = u.passwordChangedAt)
      ∧ (∀ v, payload.failedLoginAttempts = some v → u'.failedLoginAttempts = v)
      ∧ (payload.failedLoginAttempts = none
          → u'.failedLoginAttempts = u.failedLoginAttempts)
      ∧ (∀ v, payload.lockUntil = some v → u'.lockUntil = v)
      ∧ (payload.lockUntil = none → u'.lockUntil = u.lockUntil)
      ∧ (∀ v, payload.lastLoginAt = some v → u'.lastLoginAt = some v)
      ∧ (payload.lastLoginAt = none → u'.lastLoginAt = u.lastLoginAt)
      ∧ (∀ v, payload.isActive = some v → u'.isActive = v)
      ∧ (payload.isActive = none → u'.isActive = u.isActive)
      ∧ (∀ v, payload.deletedAt = some v → u'.deletedAt = v)
      ∧ (payload.deletedAt = none → u'.deletedAt = u.deletedAt)
      ∧ u'.id = u.id ∧ u'.username = u.username
      ∧ db'.users.length = db.users.length
      ∧ (∀ v ∈ db.users, v.id ≠ userId → v ∈ db'.users)) := by
  constructor
  · unfold UsersRepository.update
    rw [hfind]
    rfl
  · intro u' db' heq
    unfold UsersRepository.update at heq
    rw [hfind] at heq
    injection heq with heq
    rw [Prod.mk.injEq] at heq
    obtain ⟨hu, hdb⟩ := heq
    subst hu
    subst hdb
    refine ⟨?_, ?_, ?_, ?_, ?_, ?_, ?_, ?_, ?_, ?_, ?_, ?_, ?_, ?_, ?_, ?_, ?_, ?_⟩
    · intro v hv; simp [applyUserUpdate, hv]
    · intro hv; simp [applyUserUpdate, hv]
    · intro v hv; simp [applyUserUpdate, hv]
    · intro hv; simp [applyUserUpdate, hv]
    · intro v hv; simp [applyUserUpdate, hv]
    · intro hv; simp [applyUserUpdate, hv]
    · intro v hv; simp [applyUserUpdate, hv]
    · intro hv; simp [applyUserUpdate, hv]
    · intro v hv; simp [applyUserUpdate, hv]
    · intro hv; simp [applyUserUpdate, hv]
    · intro v hv; simp [applyUserUpdate, hv]
    · intro hv; simp [applyUserUpdate, hv]
    · intro v hv; simp [applyUserUpdate, hv]
    · intro hv; simp [applyUserUpdate, hv]
    · simp [applyUserUpdate]
    · simp [applyUserUpdate]
    · simp
    · intro v hv hne
      exact List.mem_map.mpr ⟨v, hv, by simp [beq_eq_false_iff_ne.mpr hne]⟩

theorem c9_witness :
    ({ userJohn with failedLoginAttempts := 0, lockUntil := none } : UserRec).lockUntil
        = none
    ∧ ({ userJohn with failedLoginAttempts := 0, lockUntil := none } : UserRec).lastLoginAt
        = userJohn.lastLoginAt
    ∧ (UsersRepository.update dbJohn "u1"
        { failedLoginAttempts := some 0, lockUntil := some none }).toOption.isSome
        = true := by
  have h := c9_partial_update_fields dbJohn "u1"
    { failedLoginAttempts := some 0, lockUntil := some none } userJohn rfl
  obtain ⟨_, _, _, _, _, _, hlockSup, _, _, hlastOmit, rest⟩ :=
    h.2 { userJohn with failedLoginAttempts := 0, lockUntil := none }
      { dbJohn with users := [{ userJohn with failedLoginAttempts := 0, lockUntil := none }] }
      (by decide)
  exact ⟨hlockSup none rfl, hlastOmit rfl, h.1⟩

theorem c5_witness :
    ((AuthService.login cfgGood dbJohn 1000 "john" "Password1!" "d1").2.tokens.filter
       (fun t => t.userId == "u1" && t.deviceId == "d1")).length = 1 :=
  c5_at_most_one_token_per_device cfgGood dbJohn 1000 "john" "Password1!" "d1" _ _ rfl

/-- A configuration whose access-token expiry string is unparseable. -/
def cfgBadDur : Config :=
  { accessSecret := some "as", refreshSecret := some "rs",
    accessExpiresIn := some "soon", refreshExpiresIn := some "30d" }

/-- A non-falsy optional string is a present value. -/
lemma falsyStr_false_some (o : Option String) (h : falsyStr o = false) :
    o = some (o.getD "") := by
  cases o with
  | none => simp [falsyStr] at h
  | some s => rfl

/-- C10 counterexample: with an unparseable access-expiry duration, login
fails with the raw TypeError thrown by parseDuration, not with the Internal
configuration error — the typeof guard that would produce the Internal error
is unreachable because parseDuration already threw. -/
theorem c10_counterexample :
    (AuthService.login cfgBadDur dbJohn 1000 "john" "Password1!" "d1").1
      = .error (.raw "Invalid duration format: soon")
    ∧ exceptIsInternal
        (AuthService.login cfgBadDur dbJohn 1000 "john" "Password1!" "d1").1
      = false := by
  refine ⟨by decide, by decide⟩

/-- C10 amended: every accepted configuration has both duration strings
parsed by ms to their millisecond counts, and the signer receives exactly
floor(ms / 1000) seconds; an unparseable duration string makes parseDuration
throw, and register surfaces that as the generic Internal error at its
boundary (login and refreshToken propagate the raw TypeError, see C7):
never a silent default. -/
theorem c10_expiry_seconds_amended :
    (∀ (cfg : Config) (jc : JwtConfig), AuthService.getJwtConfig cfg = .ok jc →
      (cfg.accessExpiresIn = some (cfg.accessExpiresIn.getD "")
        ∧ msParse (cfg.accessExpiresIn.getD "") = some jc.accessExpiresMs)
      ∧ (cfg.refreshExpiresIn = some (cfg.refreshExpiresIn.getD "")
        ∧ msParse (cfg.refreshExpiresIn.getD "") = some jc.refreshExpiresMs))
    ∧ (∀ (cfg : Config) (jc : JwtConfig) (p : AccessTokenPayload) (now : Int),
        AuthService.getJwtConfig cfg = .ok jc →
        AuthService.generateAccessToken cfg p now
          = .ok (signJwt p jc.accessSecret (floorDivThousand jc.accessExpiresMs) now)
        ∧ AuthService.generateRefreshToken cfg p now
          = .ok (signJwt p jc.refreshSecret (floorDivThousand jc.refreshExpiresMs) now,
                 now + jc.refreshExpiresMs))
    ∧ (∀ s, msParse s = none →
        parseDuration s = .error (.raw ("Invalid duration format: " ++ s)))
    ∧ (∀ (cfg : Config) (db : Db) (now : Int) (username password deviceId em : String),
        AuthService.getJwtConfig cfg = .error (.raw em) →
        UsersService.findByUsername db username = none →
        db.userCreateFault = none →
        (AuthService.register cfg db now username password deviceId).1
          = .error (.internal "Failed to register user")) := by
  refine ⟨?_, ?_, ?_, ?_⟩
  · intro cfg jc h
    unfold AuthService.getJwtConfig at h
    split at h
    · simp at h
    next hcond =>
      rw [Bool.not_eq_true] at hcond
      simp only [Bool.or_eq_false_iff] at hcond
      obtain ⟨⟨⟨has, hrs⟩, hae⟩, hre⟩ := hcond
      cases hp1 : parseDuration (cfg.accessExpiresIn.getD "") with
      | error e => rw [hp1] at h; simp at h
      | ok n1 =>
        rw [hp1] at h
        cases hp2 : parseDuration (cfg.refreshExpiresIn.getD "") with
        | error e => rw [hp2] at h; simp at h
        | ok n2 =>
          rw [hp2] at h
          injection h with h
          unfold parseDuration at hp1 hp2
          have hm1 : msParse (cfg.accessExpiresIn.getD "") = some n1 := by
            cases hmm : msParse (cfg.accessExpiresIn.getD "") with
            | some d => rw [hmm] at hp1; injection hp1 with hp1; rw [hp1]
            | none => rw [hmm] at hp1; simp at hp1
          have hm2 : msParse (cfg.refreshExpiresIn.getD "") = some n2 := by
            cases hmm : msParse (cfg.refreshExpiresIn.getD "") with
            | some d => rw [hmm] at hp2; injection hp2 with hp2; rw [hp2]
            | none => rw [hmm] at hp2; simp at hp2
          refine ⟨⟨falsyStr_false_some _ hae, ?_⟩, falsyStr_false_some _ hre, ?_⟩
          · rw [hm1, ← h]
          · rw [hm2, ← h]
  · intro cfg jc p now h
    constructor
    · unfold AuthService.generateAccessToken
      rw [h]
    · unfold AuthService.generateRefreshToken
      rw [h]
  · intro s h
    unfold parseDuration
    rw [h]
  · intro cfg db now username password deviceId em hcfgErr hfu hucf
    have hany : db.users.any (fun v => v.username == username) = false := by
      unfold UsersService.findByUsername UsersRepository.findByUsername at hfu
      rw [List.any_eq_false]
      intro x hx
      have := List.find?_eq_none.mp hfu x hx
      simpa using this
    unfold AuthService.register AuthService.registerTry
    unfold UsersService.ensureUsernameNotExists
    rw [hfu]
    simp only [bcryptHash]
    unfold UsersService.create UsersRepository.create
    have hucf1 : ({ db with nonce := db.nonce + 1 } : Db).userCreateFault = none := hucf
    rw [hucf1, hany]
    simp only [Bool.false_eq_true, if_false]
    unfold AuthService.generateAccessToken
    rw [hcfgErr]

theorem c10_witness :
    AuthService.generateAccessToken cfgGood ⟨"u1", "john"⟩ 1000
      = .ok (signJwt ⟨"u1", "john"⟩ jcGood.accessSecret
          (floorDivThousand jcGood.accessExpiresMs) 1000)
    ∧ floorDivThousand jcGood.accessExpiresMs = 3600
    ∧ (AuthService.register cfgBadDur dbEmpty 1000 "john" "Password1!" "d1").1
      = .error (.internal "Failed to register user") :=
  ⟨(c10_expiry_seconds_amended.2.1 cfgGood jcGood ⟨"u1", "john"⟩ 1000 (by decide)).1,
   by decide,
   c10_expiry_seconds_amended.2.2.2 cfgBadDur dbEmpty 1000 "john" "Password1!" "d1"
     "Invalid duration format: soon" (by decide) rfl rfl⟩
